import Mathlib

/-!
Shallow embedding of the two-stage LLM task-execution pipeline
(function registry, call parser, function dispatcher, planner response
extraction, orchestrator loop) from `function_ops.py`, `LLM_ops.py` and
`main.py`.

Strings are modelled over `List Char`; character classes (`\w`, `\s`,
`isdigit`, `lower`) are restricted to their ASCII meaning, which is the
only range exercised by the pipeline's inputs.
-/

namespace Spec2Proof

/-- Single-quote character (code 39), named to keep quote handling explicit. -/
def squote : Char := Char.ofNat 39

/-- Double-quote character (code 34). -/
def dquote : Char := Char.ofNat 34

/-- One-character string holding a single quote. -/
def sq : String := String.mk [squote]

/-- ASCII whitespace recognized by Python `str.strip` and the regex class `\s`:
space, tab, newline, vertical tab, form feed, carriage return. -/
def isSpaceChar (c : Char) : Bool :=
  c = ' ' || (9 ≤ c.toNat && c.toNat ≤ 13)

/-- ASCII word character, the regex class `\w`: letters, digits, underscore. -/
def isWordChar (c : Char) : Bool :=
  (65 ≤ c.toNat && c.toNat ≤ 90) || (97 ≤ c.toNat && c.toNat ≤ 122) ||
  (48 ≤ c.toNat && c.toNat ≤ 57) || c = '_'

/-- ASCII decimal digit, the range accepted by `int()` and `str.isdigit`. -/
def isDigitChar (c : Char) : Bool :=
  48 ≤ c.toNat && c.toNat ≤ 57

/-- Python `str.strip()`: drop ASCII whitespace from both ends. -/
def trimChars (cs : List Char) : List Char :=
  ((cs.dropWhile isSpaceChar).reverse.dropWhile isSpaceChar).reverse

/-- String-level wrapper of `trimChars`. -/
def trimStr (s : String) : String :=
  String.mk (trimChars s.data)

/-- Whether `p` is a prefix of `s`, as lists of characters. -/
def listPrefixOf : List Char → List Char → Bool
  | [], _ => true
  | _ :: _, [] => false
  | a :: as, b :: bs => a = b && listPrefixOf as bs

/-- Python `startswith` on the character-list model. -/
def startsWithStr (s p : String) : Bool :=
  listPrefixOf p.data s.data

/-- Python `endswith` on the character-list model. -/
def endsWithStr (s p : String) : Bool :=
  listPrefixOf p.data.reverse s.data.reverse

/-- ASCII `str.lower` on one character. -/
def lowerChar (c : Char) : Char :=
  if 65 ≤ c.toNat && c.toNat ≤ 90 then Char.ofNat (c.toNat + 32) else c

/-- ASCII `str.lower` on a string. -/
def lowerStr (s : String) : String :=
  String.mk (s.data.map lowerChar)

/-- Value of a Python digit string, `int(value)`. -/
def digitsToNat (cs : List Char) : Nat :=
  cs.foldl (fun n c => 10 * n + (c.toNat - 48)) 0

/-!
## Call Parser (`function_ops.parse_function_call`)

The typed scalar values a parsed argument can take. `float` keeps the
numeric literal text: the claims only distinguish the coercion class, and
IEEE-754 conversion is outside the shallow embedding.
-/

/-- Typed scalar argument value produced by the parser's coercion rules. -/
inductive Value where
  | str (s : String)
  | int (n : Nat)
  | float (lit : String)
  | bool (b : Bool)
  | none
deriving DecidableEq, Repr

/-- Python `str(value)` on a parser value (float rendering abstracted to the
kept literal). -/
def valueToString : Value → String
  | .str s => s
  | .int n => toString n
  | .float lit => lit
  | .bool true => "True"
  | .bool false => "False"
  | .none => "None"

/-- Drop the first '.' of the list, Python `value.replace(".", "", 1)`. -/
def removeFirstDot : List Char → List Char
  | [] => []
  | c :: cs => if c = '.' then cs else c :: removeFirstDot cs

/-- The numeric test of the coercion chain:
`value.replace(".", "", 1).isdigit()` — after removing at most one dot the
remainder is nonempty and all digits. -/
def isDigitish (v : String) : Bool :=
  let r := removeFirstDot v.data
  !r.isEmpty && r.all isDigitChar

/-- Whether the value token is wrapped in matching quotes:
`(value.startswith('"') and value.endswith('"')) or (single-quote version)`.
Note a one-character quote token counts as wrapped, exactly as in Python. -/
def isQuoted (v : String) : Bool :=
  (startsWithStr v (String.mk [dquote]) && endsWithStr v (String.mk [dquote])) ||
  (startsWithStr v sq && endsWithStr v sq)

/-- The value coercion chain of `parse_function_call`: strip matching quotes;
else case-insensitive `true`/`false` to booleans; else case-insensitive
`none` to null; else digit strings to int, digits with one dot to float;
otherwise the raw token is kept as a string. -/
def coerceValue (v : String) : Value :=
  if isQuoted v then
    Value.str (String.mk (v.data.drop 1).dropLast)
  else if lowerStr v = "true" then Value.bool true
  else if lowerStr v = "false" then Value.bool false
  else if lowerStr v = "none" then Value.none
  else if isDigitish v then
    (if v.data.contains '.' then Value.float v else Value.int (digitsToNat v.data))
  else Value.str v

/-- State of the left-to-right argument-splitting scan: the active quote
character when inside a string, the characters of the argument being built,
and the arguments already split off. -/
structure ScanState where
  inString : Option Char
  current : List Char
  acc : List (List Char)
deriving DecidableEq, Repr

/-- One character step of the scan. A quote opens a string when none is
open, closes it only when identical to the opener, and is otherwise kept
as a literal character; a comma splits only outside a string (the finished
argument is stripped as it is appended); any other character is appended. -/
def scanStep (st : ScanState) (c : Char) : ScanState :=
  if c = dquote || c = squote then
    match st.inString with
    | Option.none => ScanState.mk (some c) (st.current ++ [c]) st.acc
    | some q =>
      if c = q then ScanState.mk Option.none (st.current ++ [c]) st.acc
      else ScanState.mk (some q) (st.current ++ [c]) st.acc
  else if c = ',' && st.inString.isNone then
    ScanState.mk Option.none [] (st.acc ++ [trimChars st.current])
  else
    ScanState.mk st.inString (st.current ++ [c]) st.acc

/-- Split the raw argument list on commas outside quotes; a nonempty tail
fragment is stripped and appended after the scan. -/
def splitArgs (cs : List Char) : List (List Char) :=
  let st := cs.foldl scanStep (ScanState.mk Option.none [] [])
  if st.current.isEmpty then st.acc else st.acc ++ [trimChars st.current]

/-- Insert into the argument dictionary with Python `dict` semantics:
an existing key keeps its position and gets the new value, a new key is
appended. -/
def dictInsert (d : List (String × Value)) (k : String) (v : Value) :
    List (String × Value) :=
  if d.any (fun p => p.1 = k) then
    d.map (fun p => if p.1 = k then (k, v) else p)
  else d ++ [(k, v)]

/-- Process one split fragment: a fragment without `=` is silently dropped;
otherwise split on the first `=`, strip key and value, coerce the value. -/
def processFragment (d : List (String × Value)) (arg : List Char) :
    List (String × Value) :=
  if arg.contains '=' then
    let key := String.mk (trimChars (arg.takeWhile (fun c => c ≠ '=')))
    let v := String.mk (trimChars ((arg.dropWhile (fun c => c ≠ '=')).tail))
    dictInsert d key (coerceValue v)
  else d

/-- The anchored head match `(\w+)\s*\(`: a nonempty maximal run of word
characters, optional whitespace, then an opening parenthesis. -/
def matchFuncName (cs : List Char) : Option String :=
  let w := cs.takeWhile isWordChar
  let rest := (cs.dropWhile isWordChar).dropWhile isSpaceChar
  if !w.isEmpty && rest.head? = some '(' then some (String.mk w) else Option.none

/-- The unanchored search `\((.*)\)` with DOTALL: the text strictly between
the first `(` and the last `)`, when the last `)` comes after the first `(`. -/
def extractArgsStr (cs : List Char) : Option (List Char) :=
  match cs.dropWhile (fun c => c ≠ '(') with
  | [] => Option.none
  | _ :: after =>
    match after.reverse.dropWhile (fun c => c ≠ ')') with
    | [] => Option.none
    | _ :: revInner => some revInner.reverse

/-- `parse_function_call`: extract the function name (else `(null, {})`),
the argument substring (else `(name, {})`), split it respecting quotes,
and fold the `key=value` fragments into the argument dictionary. -/
def parse_function_call (s : String) : Option String × List (String × Value) :=
  match matchFuncName s.data with
  | Option.none => (Option.none, [])
  | some f =>
    match extractArgsStr s.data with
    | Option.none => (some f, [])
    | some inner =>
      let argsStr := trimChars inner
      if argsStr.isEmpty then (some f, [])
      else (some f, (splitArgs argsStr).foldl processFragment [])

/-!
## Function Registry and Dispatcher (`function_ops.py`)

A registered function is modelled by its declared parameter names in
signature order plus its behaviour, a map from the keyword arguments it is
invoked with to a result or a raised error.
-/

/-- Registered callable: declared parameter names (signature order) and
behaviour on the keyword arguments it receives. -/
structure FuncEntry where
  params : List String
  impl : List (String × Value) → Except String Value

/-- The function registry: a mutable name-to-callable mapping, modelled as
its lookup function. -/
def Registry : Type := String → Option FuncEntry

/-- The empty registry. -/
def emptyRegistry : Registry := fun _ => Option.none

/-- Registering one discovered function: `function_registry[name] = func`,
overwriting any earlier entry of the same name. -/
def registryInsert (r : Registry) (p : String × FuncEntry) : Registry :=
  fun n => if n = p.1 then some p.2 else r n

/-- Register a walk's discovered `ai_`-prefixed functions in order. -/
def loadRegistry (r : Registry) (funcs : List (String × FuncEntry)) : Registry :=
  funcs.foldl registryInsert r

/-- A function directory as the loader observes it: whether the path is a
directory, and the `ai_`-prefixed functions its modules yield, in the
deterministic walk-and-getmembers order (modules that fail to import are
logged and skipped, so they contribute no entries). -/
structure Directory where
  isDir : Bool
  funcs : List (String × FuncEntry)

/-- Outcome of one loader call: the registry afterwards, whether an
exception escaped to the caller, and whether the missing-directory error
was logged. -/
structure LoadOutcome where
  registry : Registry
  raised : Bool
  missingDirLogged : Bool

/-- `load_functions_from_directory`: a missing directory is logged and the
call returns with the registry untouched (no exception); otherwise every
discovered `ai_` function is registered, per-module failures having been
skipped inside the walk. -/
def load_functions_from_directory (d : Directory) (r : Registry) : LoadOutcome :=
  if d.isDir then
    LoadOutcome.mk (loadRegistry r d.funcs) false false
  else
    LoadOutcome.mk r false true

/-- First value for a key in the argument mapping. -/
def lookupArg : List (String × Value) → String → Option Value
  | [], _ => Option.none
  | p :: ps, k => if p.1 = k then some p.2 else lookupArg ps k

/-- The dispatcher's argument filter: walk the declared parameters in
signature order and keep exactly those provided in the argument mapping. -/
def validArgs (params : List String) (args : List (String × Value)) :
    List (String × Value) :=
  params.filterMap (fun p => (lookupArg args p).map (fun v => (p, v)))

/-- `execute_function`: an unregistered name raises the not-found error and
nothing is invoked; otherwise the callable runs on the filtered keyword
arguments, its own exception being logged and re-raised unchanged. -/
def execute_function (reg : Registry) (funcName : String)
    (args : List (String × Value)) : Except String Value :=
  match reg funcName with
  | Option.none =>
    Except.error ("Function " ++ sq ++ funcName ++ sq ++ " not found in registry")
  | some f => f.impl (validArgs f.params args)

/-!
## Planner extraction (`LLM_ops.process_llm1_response`)
-/

/-- Leftmost match of the pattern `\[(.*?)\]` with DOTALL: from the first
opening bracket to the nearest closing bracket after it, brackets included. -/
def findBracketed (cs : List Char) : Option (List Char) :=
  match cs.dropWhile (fun c => c ≠ '[') with
  | [] => Option.none
  | _ :: after =>
    if (after.dropWhile (fun c => c ≠ ']')).isEmpty then Option.none
    else some ('[' :: after.takeWhile (fun c => c ≠ ']') ++ [']'])

/-- Parse one quoted string literal (no escape sequences, which the planner
output does not use): opening quote, body up to the identical closing
quote, which must be present. -/
def parseStringLit : List Char → Option (String × List Char)
  | [] => Option.none
  | q :: cs =>
    if q = squote || q = dquote then
      match cs.dropWhile (fun c => c ≠ q) with
      | [] => Option.none
      | _ :: rest => some (String.mk (cs.takeWhile (fun c => c ≠ q)), rest)
    else Option.none

/-- Parse the comma-separated tail of a list literal after its first
element, ending at the closing bracket; fuel bounds the recursion. -/
def parseElemsTail (fuel : Nat) (acc : List String) (cs : List Char) :
    Option (List String × List Char) :=
  match fuel with
  | 0 => Option.none
  | fuel + 1 =>
    match cs.dropWhile isSpaceChar with
    | ']' :: rest => some (acc, rest)
    | ',' :: rest =>
      match parseStringLit (rest.dropWhile isSpaceChar) with
      | some (s, rest2) => parseElemsTail fuel (acc ++ [s]) rest2
      | Option.none => Option.none
    | _ => Option.none

/-- `ast.literal_eval` restricted to the planner contract, a list literal of
quoted strings; anything else (bare names, unterminated strings, nesting,
trailing text) fails, as `literal_eval` would raise on the texts the
extraction tiers feed it. -/
def literalEvalStrList (s : String) : Option (List String) :=
  match s.data.dropWhile isSpaceChar with
  | '[' :: rest =>
    let body := rest.dropWhile isSpaceChar
    match body with
    | ']' :: tail => if (tail.dropWhile isSpaceChar).isEmpty then some [] else Option.none
    | _ =>
      match parseStringLit body with
      | some (s0, rest2) =>
        match parseElemsTail rest2.length [s0] rest2 with
        | some (elems, tail) =>
          if (tail.dropWhile isSpaceChar).isEmpty then some elems else Option.none
        | Option.none => Option.none
      | Option.none => Option.none
  | _ => Option.none

/-- Split on newline characters, Python `str.split`: keeps empty pieces. -/
def splitLinesAux : List Char → List (List Char)
  | [] => [[]]
  | c :: cs =>
    if c = Char.ofNat 10 then [] :: splitLinesAux cs
    else
      match splitLinesAux cs with
      | h :: t => (c :: h) :: t
      | [] => [[c]]

/-- The line-scan tier's per-line cleanup
`re.sub(r"^\s*[\d\-\*]+\.\s*", "", line).strip()`: strip one leading
numbered/bulleted marker when present, then strip whitespace. -/
def cleanLine (line : List Char) : List Char :=
  let afterWs := line.dropWhile isSpaceChar
  let isMarkerChar := fun c => isDigitChar c || c = '-' || c = '*'
  let marker := afterWs.takeWhile isMarkerChar
  let rest := afterWs.dropWhile isMarkerChar
  let subbed :=
    if !marker.isEmpty && rest.head? = some '.' then rest.tail.dropWhile isSpaceChar
    else line
  trimChars subbed

/-- The second extraction tier: keep each line whose cleanup is nonempty
and differs from the original line. -/
def lineScan (response : String) : List String :=
  (splitLinesAux response.data).filterMap (fun line =>
    let cl := cleanLine line
    if !cl.isEmpty && cl ≠ line then some (String.mk cl) else Option.none)

/-- `process_llm1_response`: when a bracketed segment exists, evaluate it as
a list literal, a failure being caught and returned as the empty list;
otherwise scan lines for numbered/bulleted items; otherwise the whole
stripped response is the single subtask. -/
def process_llm1_response (response : String) : List String :=
  match findBracketed response.data with
  | some matched =>
    match literalEvalStrList (String.mk matched) with
    | some l => l
    | Option.none => []
  | Option.none =>
    let pl := lineScan response
    if !pl.isEmpty then pl else [trimStr response]

/-!
## Orchestrator (`main.run_agent`)

The executor model is an oracle `llm2 : String → String` from prompt text
to reply text; the planner round-trip is represented by its reply text,
which `run_agent` feeds to `process_llm1_response`.
-/

/-- Per-subtask outcome record, the `subtask_result` dictionary. -/
structure SubtaskResult where
  id : Nat
  description : String
  function_call : Option String
  success : Bool
  result : Option String
  error : Option String
deriving DecidableEq, Repr

/-- Aggregate outcome of one run, the `results` dictionary. -/
structure RunResult where
  task : String
  subtasks : List SubtaskResult
  success : Bool
  error : Option String

/-- Strip the response and remove one enclosing pair of code fences:
`clean_response[3:-3].strip()` when the stripped text both starts and ends
with three backticks. -/
def stripFences (s : String) : String :=
  let t := trimStr s
  if startsWithStr t "```" && endsWithStr t "```" then
    trimStr (String.mk ((t.data.drop 3).dropLast.dropLast.dropLast))
  else t

/-- One subtask attempt: query the executor model, clean the reply, parse
it (an unparsable reply raises the could-not-parse error), and dispatch;
any error anywhere in the attempt is the attempt's failure. -/
def attemptSubtask (llm2 : String → String) (reg : Registry) (subtask : String) :
    Except String String :=
  match parse_function_call (stripFences (llm2 ("Subtask: " ++ subtask))) with
  | (Option.none, _) =>
    Except.error ("Could not parse function call: " ++
      stripFences (llm2 ("Subtask: " ++ subtask)))
  | (some fname, args) =>
    match execute_function reg fname args with
    | Except.ok v => Except.ok (valueToString v)
    | Except.error e => Except.error e

/-- Build one `SubtaskResult` from an attempt at index `i` (ids are
1-based); the parsed-call field is initialized to `None` and the loop body
never assigns it. -/
def subtaskStep (llm2 : String → String) (reg : Registry) (i : Nat)
    (subtask : String) : SubtaskResult :=
  match attemptSubtask llm2 reg subtask with
  | Except.ok r =>
    SubtaskResult.mk (i + 1) subtask Option.none true (some r) Option.none
  | Except.error e =>
    SubtaskResult.mk (i + 1) subtask Option.none false Option.none (some e)

/-- The per-subtask loop: appends each result, clears the run's success
flag on a failure, and records the first failure's message; the loop always
continues to the next subtask. -/
def runLoop (llm2 : String → String) (reg : Registry) (i : Nat)
    (subs : List String) (acc : List SubtaskResult) (succ : Bool)
    (err : Option String) : List SubtaskResult × Bool × Option String :=
  match subs with
  | [] => (acc, succ, err)
  | st :: rest =>
    let r := subtaskStep llm2 reg i st
    let succ2 := if r.success then succ else false
    let err2 :=
      match err with
      | some e => some e
      | Option.none =>
        if r.success then Option.none
        else some ("Error in subtask " ++ toString (i + 1) ++ ": " ++ r.error.getD "")
    runLoop llm2 reg (i + 1) rest (acc ++ [r]) succ2 err2

/-- `run_agent`: load the function directory, extract the subtask list from
the planner reply, and execute every subtask in order through the loop. -/
def run_agent (llm1Response : String) (llm2 : String → String) (d : Directory)
    (r0 : Registry) (task : String) : RunResult :=
  RunResult.mk task
    (runLoop llm2 (load_functions_from_directory d r0).registry 0
      (process_llm1_response llm1Response) [] true Option.none).1
    (runLoop llm2 (load_functions_from_directory d r0).registry 0
      (process_llm1_response llm1Response) [] true Option.none).2.1
    (runLoop llm2 (load_functions_from_directory d r0).registry 0
      (process_llm1_response llm1Response) [] true Option.none).2.2

/-!
## Helper lemmas
-/

/-- First-some choice on options, used to describe registry lookups. -/
def optOr : Option FuncEntry → Option FuncEntry → Option FuncEntry
  | some x, _ => some x
  | Option.none, b => b

/-- Entry a key ends up with after a load: the last pair of the walk list
carrying that key, if any. -/
def lastEntry : List (String × FuncEntry) → String → Option FuncEntry
  | [], _ => Option.none
  | p :: ps, n =>
    match lastEntry ps n with
    | some f => some f
    | Option.none => if n = p.1 then some p.2 else Option.none

theorem loadRegistry_lookup (fs : List (String × FuncEntry)) :
    ∀ (r : Registry) (n : String),
      loadRegistry r fs n = optOr (lastEntry fs n) (r n) := by
  induction fs with
  | nil => intro r n; rfl
  | cons p ps ih =>
    intro r n
    show loadRegistry (registryInsert r p) ps n = _
    rw [ih]
    cases h : lastEntry ps n with
    | some f => simp [lastEntry, h, optOr]
    | none =>
      simp only [lastEntry, h, optOr, registryInsert]
      by_cases hn : n = p.1 <;> simp [hn, optOr]

theorem lowerChar_eq_of_isDigitChar (c : Char) (h : isDigitChar c = true) :
    lowerChar c = c := by
  unfold isDigitChar at h
  simp at h
  unfold lowerChar
  have hc : ((65 ≤ c.toNat && c.toNat ≤ 90) : Bool) = false := by
    simp
    omega
  simp [hc]

theorem isDigitChar_false_of_lowerChar (c x : Char) (hcx : lowerChar c = x)
    (hx : isDigitChar x = false) : isDigitChar c = false := by
  cases hd : isDigitChar c with
  | false => rfl
  | true =>
    rw [lowerChar_eq_of_isDigitChar c hd] at hcx
    rw [hcx] at hd
    rw [hd] at hx
    exact absurd hx (by simp)

theorem ne_dot_of_lowerChar (c x : Char) (hcx : lowerChar c = x)
    (hx : x ≠ '.') : c ≠ '.' := by
  intro hc
  subst hc
  exact hx (by rw [← hcx]; rfl)

/-- A token whose lowercasing is the word `null` fails the numeric test of
the coercion chain. -/
theorem isDigitish_false_of_lower_null (v : String) (h : lowerStr v = "null") :
    isDigitish v = false := by
  have hd : v.data.map lowerChar = "null".data := congrArg String.data h
  rcases hl : v.data with _ | ⟨a, _ | ⟨b, _ | ⟨c, _ | ⟨e, _ | ⟨f, l⟩⟩⟩⟩⟩ <;>
    rw [hl] at hd <;> simp_all
  obtain ⟨ha, hb, hc, he⟩ := hd
  have ha1 : isDigitChar a = false :=
    isDigitChar_false_of_lowerChar a _ ha (by decide)
  have ha2 : a ≠ '.' := ne_dot_of_lowerChar a _ ha (by decide)
  unfold isDigitish
  rw [hl]
  simp [removeFirstDot, ha2, ha1]

/-- Results produced by the loop, one per subtask in order. -/
def stepResults (llm2 : String → String) (reg : Registry) :
    Nat → List String → List SubtaskResult
  | _, [] => []
  | i, st :: rest => subtaskStep llm2 reg i st :: stepResults llm2 reg (i + 1) rest

theorem runLoop_subtasks (llm2 : String → String) (reg : Registry)
    (subs : List String) :
    ∀ (i : Nat) (acc : List SubtaskResult) (succ : Bool) (err : Option String),
      (runLoop llm2 reg i subs acc succ err).1 = acc ++ stepResults llm2 reg i subs := by
  induction subs with
  | nil => intro i acc succ err; simp [runLoop, stepResults]
  | cons st rest ih =>
    intro i acc succ err
    simp only [runLoop, stepResults]
    rw [ih]
    simp

theorem runLoop_success (llm2 : String → String) (reg : Registry)
    (subs : List String) :
    ∀ (i : Nat) (acc : List SubtaskResult) (succ : Bool) (err : Option String),
      (runLoop llm2 reg i subs acc succ err).2.1 =
        (succ && (stepResults llm2 reg i subs).all (fun r => r.success)) := by
  induction subs with
  | nil => intro i acc succ err; simp [runLoop, stepResults]
  | cons st rest ih =>
    intro i acc succ err
    simp only [runLoop, stepResults]
    rw [ih]
    cases h : (subtaskStep llm2 reg i st).success <;> simp [h, Bool.and_assoc]

/-!
## Claims about the registry and dispatcher
-/

/-- Counterexample to C1: loading a nonexistent directory does not surface
a hard error to the caller — no exception is raised; the failure is only
logged and the call returns. -/
theorem load_missing_dir_returns_silently :
    (load_functions_from_directory (Directory.mk false []) emptyRegistry).raised = false ∧
    (load_functions_from_directory (Directory.mk false []) emptyRegistry).missingDirLogged = true :=
  ⟨rfl, rfl⟩

/-- C1 (amended): loading a nonexistent directory registers no functions
and logs the missing-directory error, but returns normally to the caller
instead of raising. -/
theorem load_missing_dir_logged_not_raised (d : Directory) (r : Registry)
    (h : d.isDir = false) :
    (load_functions_from_directory d r).raised = false ∧
    (load_functions_from_directory d r).missingDirLogged = true ∧
    (load_functions_from_directory d r).registry = r := by
  simp [load_functions_from_directory, h]

/-- Witness for the amended C1 at a concrete missing directory. -/
theorem load_missing_dir_logged_not_raised_case :
    (load_functions_from_directory (Directory.mk false []) emptyRegistry).raised = false ∧
    (load_functions_from_directory (Directory.mk false []) emptyRegistry).missingDirLogged = true ∧
    (load_functions_from_directory (Directory.mk false []) emptyRegistry).registry = emptyRegistry :=
  load_missing_dir_logged_not_raised (Directory.mk false []) emptyRegistry rfl

/-- C8: dispatching a name absent from the registry always fails with the
not-registered error; the result is this error for every argument mapping,
independent of every registered callable, so no callable is invoked. -/
theorem execute_function_unregistered_error (reg : Registry) (funcName : String)
    (args : List (String × Value)) (h : reg funcName = Option.none) :
    execute_function reg funcName args =
      Except.error ("Function " ++ sq ++ funcName ++ sq ++ " not found in registry") := by
  unfold execute_function
  rw [h]

/-- Witness for C8 on the empty registry. -/
theorem execute_function_unregistered_error_case :
    execute_function emptyRegistry "ai_missing" [] =
      Except.error ("Function " ++ sq ++ "ai_missing" ++ sq ++ " not found in registry") :=
  execute_function_unregistered_error emptyRegistry "ai_missing" [] rfl

/-- C7: dispatching a registered function invokes its callable on exactly
the declared-parameter keys of the argument mapping: the invocation
happens with the filtered arguments, every filtered pair comes from the
mapping under a declared key, and every declared key present in the
mapping is kept. -/
theorem execute_function_filters_unknown_keys (reg : Registry) (funcName : String)
    (f : FuncEntry) (args : List (String × Value)) (h : reg funcName = some f) :
    execute_function reg funcName args = f.impl (validArgs f.params args) ∧
    (∀ k v, (k, v) ∈ validArgs f.params args →
      k ∈ f.params ∧ lookupArg args k = some v) ∧
    (∀ p v, p ∈ f.params → lookupArg args p = some v →
      (p, v) ∈ validArgs f.params args) := by
  refine ⟨by unfold execute_function; rw [h], ?_, ?_⟩
  · intro k v hkv
    rw [validArgs, List.mem_filterMap] at hkv
    obtain ⟨p, hp, hpv⟩ := hkv
    rw [Option.map_eq_some'] at hpv
    obtain ⟨w, hw, hpw⟩ := hpv
    obtain ⟨rfl, rfl⟩ := Prod.mk.injEq .. ▸ hpw
    exact ⟨hp, hw⟩
  · intro p v hp hv
    rw [validArgs, List.mem_filterMap]
    exact ⟨p, hp, by rw [hv]; rfl⟩

/-- Concrete function entry used by dispatcher witnesses: one declared
parameter, behaviour reporting how many keyword arguments it received. -/
def exEntry : FuncEntry :=
  FuncEntry.mk ["a"] (fun kw => Except.ok (Value.int kw.length))

/-- Concrete one-entry registry used by dispatcher witnesses. -/
def exReg : Registry := registryInsert emptyRegistry ("ai_f", exEntry)

/-- Witness for C7: the unknown key `zzz` is dropped while the declared
key `a` is kept and the callable is invoked. -/
theorem execute_function_filters_unknown_keys_case :
    execute_function exReg "ai_f" [("a", Value.int 1), ("zzz", Value.int 2)] =
      exEntry.impl (validArgs exEntry.params [("a", Value.int 1), ("zzz", Value.int 2)]) ∧
    ("a" ∈ exEntry.params ∧
      lookupArg [("a", Value.int 1), ("zzz", Value.int 2)] "a" = some (Value.int 1)) ∧
    ("a", Value.int 1) ∈ validArgs exEntry.params [("a", Value.int 1), ("zzz", Value.int 2)] := by
  have h := execute_function_filters_unknown_keys exReg "ai_f" exEntry
    [("a", Value.int 1), ("zzz", Value.int 2)] rfl
  exact ⟨h.1, h.2.1 "a" (Value.int 1) (by decide), h.2.2 "a" (Value.int 1) (by decide) (by decide)⟩

/-- C9: re-loading the same function directory twice yields exactly the
registry of loading it once — same-named entries are overwritten, never
duplicated or dropped. -/
theorem load_functions_from_directory_idempotent (d : Directory) (r : Registry)
    (h : d.isDir = true) :
    (load_functions_from_directory d
        (load_functions_from_directory d r).registry).registry =
      (load_functions_from_directory d r).registry := by
  simp only [load_functions_from_directory, h, if_pos]
  funext n
  rw [loadRegistry_lookup, loadRegistry_lookup]
  cases lastEntry d.funcs n <;> rfl

/-- Witness for C9 at a concrete one-module directory. -/
theorem load_functions_from_directory_idempotent_case :
    (load_functions_from_directory (Directory.mk true [("ai_f", exEntry)])
        (load_functions_from_directory (Directory.mk true [("ai_f", exEntry)])
          emptyRegistry).registry).registry =
      (load_functions_from_directory (Directory.mk true [("ai_f", exEntry)])
        emptyRegistry).registry :=
  load_functions_from_directory_idempotent (Directory.mk true [("ai_f", exEntry)])
    emptyRegistry rfl

/-!
## Claims about the call parser and planner extraction
-/

/-- Counterexample to C5: the coercion chain has no `null` case — the
unquoted token `null` stays the raw string `"null"` instead of becoming
the null value. -/
theorem parse_function_call_null_not_coerced :
    parse_function_call "f(a=null)" = (some "f", [("a", Value.str "null")]) ∧
    parse_function_call "f(a=null)" ≠ (some "f", [("a", Value.none)]) := by
  constructor
  · decide
  · decide

/-- C5 (amended): well-formed call text parses to the function name and the
argument mapping, values typed by the coercion chain — matching quotes are
stripped to a string, case-insensitive `true`/`false` become booleans,
case-insensitive `none` (but not `null`, which stays a raw string) becomes
null, pure digit sequences become integers, and digit sequences with
exactly one decimal point become floating-point numbers. -/
theorem parse_function_call_coercion :
    parse_function_call ("f(a=1, b=" ++ sq ++ "x" ++ sq ++ ")") =
      (some "f", [("a", Value.int 1), ("b", Value.str "x")]) ∧
    (∀ v : String, isQuoted v = true →
      coerceValue v = Value.str (String.mk ((v.data.drop 1).dropLast))) ∧
    (∀ v : String, isQuoted v = false → lowerStr v = "true" →
      coerceValue v = Value.bool true) ∧
    (∀ v : String, isQuoted v = false → lowerStr v = "false" →
      coerceValue v = Value.bool false) ∧
    (∀ v : String, isQuoted v = false → lowerStr v = "none" →
      coerceValue v = Value.none) ∧
    (∀ v : String, isQuoted v = false → lowerStr v = "null" →
      coerceValue v = Value.str v) ∧
    (∀ v : String, isQuoted v = false → lowerStr v ≠ "true" → lowerStr v ≠ "false" →
      lowerStr v ≠ "none" → isDigitish v = true → v.data.contains '.' = false →
      coerceValue v = Value.int (digitsToNat v.data)) ∧
    (∀ v : String, isQuoted v = false → lowerStr v ≠ "true" → lowerStr v ≠ "false" →
      lowerStr v ≠ "none" → isDigitish v = true → v.data.contains '.' = true →
      coerceValue v = Value.float v) := by
  refine ⟨by decide, ?_, ?_, ?_, ?_, ?_, ?_, ?_⟩
  · intro v hq
    simp [coerceValue, hq]
  · intro v hq ht
    simp [coerceValue, hq, ht]
  · intro v hq hf
    have ht : lowerStr v ≠ "true" := by rw [hf]; decide
    simp [coerceValue, hq, hf, ht]
  · intro v hq hn
    have ht : lowerStr v ≠ "true" := by rw [hn]; decide
    have hf : lowerStr v ≠ "false" := by rw [hn]; decide
    simp [coerceValue, hq, hn, ht, hf]
  · intro v hq hn
    have ht : lowerStr v ≠ "true" := by rw [hn]; decide
    have hf : lowerStr v ≠ "false" := by rw [hn]; decide
    have ho : lowerStr v ≠ "none" := by rw [hn]; decide
    have hd : isDigitish v = false := isDigitish_false_of_lower_null v hn
    simp [coerceValue, hq, ht, hf, ho, hd]
  · intro v hq ht hf ho hd hdot
    have hdot2 : '.' ∉ v.data := by simpa using hdot
    simp [coerceValue, hq, ht, hf, ho, hd, hdot2]
  · intro v hq ht hf ho hd hdot
    have hdot2 : '.' ∈ v.data := by simpa using hdot
    simp [coerceValue, hq, ht, hf, ho, hd, hdot2]

/-- Witness for the amended C5: each coercion rule applied at a concrete
token, plus the worked call text. -/
theorem parse_function_call_coercion_case :
    parse_function_call ("f(a=1, b=" ++ sq ++ "x" ++ sq ++ ")") =
      (some "f", [("a", Value.int 1), ("b", Value.str "x")]) ∧
    coerceValue (sq ++ "hi" ++ sq) = Value.str "hi" ∧
    coerceValue "True" = Value.bool true ∧
    coerceValue "FALSE" = Value.bool false ∧
    coerceValue "None" = Value.none ∧
    coerceValue "null" = Value.str "null" ∧
    coerceValue "42" = Value.int 42 ∧
    coerceValue "3.14" = Value.float "3.14" :=
  ⟨parse_function_call_coercion.1,
   by
     have h := parse_function_call_coercion.2.1 (sq ++ "hi" ++ sq) (by decide)
     rw [h]; decide,
   parse_function_call_coercion.2.2.1 "True" (by decide) (by decide),
   parse_function_call_coercion.2.2.2.1 "FALSE" (by decide) (by decide),
   parse_function_call_coercion.2.2.2.2.1 "None" (by decide) (by decide),
   parse_function_call_coercion.2.2.2.2.2.1 "null" (by decide) (by decide),
   parse_function_call_coercion.2.2.2.2.2.2.1 "42" (by decide) (by decide) (by decide)
     (by decide) (by decide) (by decide),
   parse_function_call_coercion.2.2.2.2.2.2.2 "3.14" (by decide) (by decide) (by decide)
     (by decide) (by decide) (by decide)⟩

/-- C6: commas inside quoted string values never split the argument list —
the worked example keeps `hello, world` whole, and the scan step neither
splits nor leaves the string on any character other than the opening quote
character, a different quote being kept as a literal. -/
theorem parse_function_call_quote_scan :
    parse_function_call ("f(msg=" ++ sq ++ "hello, world" ++ sq ++ ")") =
      (some "f", [("msg", Value.str "hello, world")]) ∧
    (∀ (st : ScanState) (q c : Char), st.inString = some q → c ≠ q →
      scanStep st c = ScanState.mk (some q) (st.current ++ [c]) st.acc) ∧
    (∀ (st : ScanState) (q : Char), st.inString = some q →
      (q = dquote ∨ q = squote) →
      scanStep st q = ScanState.mk Option.none (st.current ++ [q]) st.acc) := by
  refine ⟨by decide, ?_, ?_⟩
  · intro st q c hst hc
    obtain ⟨is, cur, acc⟩ := st
    obtain rfl : is = some q := hst
    unfold scanStep
    by_cases hcq : (c = dquote || c = squote) = true
    · simp only [hcq, if_pos]
      simp [hc]
    · simp only [Bool.not_eq_true] at hcq
      simp [hcq]
  · intro st q hst hq
    obtain ⟨is, cur, acc⟩ := st
    obtain rfl : is = some q := hst
    have hqq : (q = dquote || q = squote) = true := by
      rcases hq with h | h <;> simp [h]
    unfold scanStep
    simp [hqq]

/-- Witness for C6 at a concrete scan state inside a single-quoted string:
a comma is kept as part of the value, and the matching quote closes it. -/
theorem parse_function_call_quote_scan_case :
    parse_function_call ("f(msg=" ++ sq ++ "hello, world" ++ sq ++ ")") =
      (some "f", [("msg", Value.str "hello, world")]) ∧
    scanStep (ScanState.mk (some squote) [] []) ',' =
      ScanState.mk (some squote) [','] [] ∧
    scanStep (ScanState.mk (some squote) [] []) squote =
      ScanState.mk Option.none [squote] [] :=
  ⟨parse_function_call_quote_scan.1,
   parse_function_call_quote_scan.2.1 (ScanState.mk (some squote) [] []) squote ','
     rfl (by decide),
   parse_function_call_quote_scan.2.2 (ScanState.mk (some squote) [] []) squote
     rfl (Or.inr rfl)⟩

/-- Counterexample to C2: a present but malformed bracket-delimited list
does not fall through to the later extraction tiers — the caught failure
yields the empty list for a non-empty response. -/
theorem process_llm1_response_malformed_list_empty :
    process_llm1_response "[a, b]" = [] ∧ "[a, b]" ≠ "" := by
  constructor
  · decide
  · decide

/-- C2 (amended): subtask extraction never raises; when the
bracket-delimited list literal is present but malformed, the caught
failure yields the empty list rather than falling through; the later tiers
apply only when no bracketed segment exists, and then the result is never
empty. -/
theorem process_llm1_response_tiers :
    (∀ (r : String) (m : List Char), findBracketed r.data = some m →
      literalEvalStrList (String.mk m) = Option.none →
      process_llm1_response r = []) ∧
    (∀ r : String, findBracketed r.data = Option.none →
      process_llm1_response r ≠ []) := by
  constructor
  · intro r m hb he
    simp [process_llm1_response, hb, he]
  · intro r hb
    unfold process_llm1_response
    rw [hb]
    cases hpl : (lineScan r).isEmpty with
    | true => simp [hpl]
    | false =>
      simp only [hpl, Bool.not_false, if_pos]
      intro hnil
      rw [hnil] at hpl
      exact absurd hpl (by decide)

/-- Witness for the amended C2: a malformed bracketed list yields the empty
list, and a bracket-free response yields a nonempty result. -/
theorem process_llm1_response_tiers_case :
    process_llm1_response "[a, b]" = [] ∧ process_llm1_response "hi" ≠ [] :=
  ⟨process_llm1_response_tiers.1 "[a, b]" ['[', 'a', ',', ' ', 'b', ']']
     (by decide) (by decide),
   process_llm1_response_tiers.2 "hi" (by decide)⟩

/-!
## Claims about the orchestrator
-/

/-- C4: the run's overall success flag is the AND of the per-subtask
success flags — false exactly when at least one subtask failed, true for
a run whose every subtask succeeded, including the zero-subtask run. -/
theorem run_agent_success_iff_all_subtasks (llm1Response : String)
    (llm2 : String → String) (d : Directory) (r0 : Registry) (task : String) :
    (run_agent llm1Response llm2 d r0 task).success =
      (run_agent llm1Response llm2 d r0 task).subtasks.all (fun r => r.success) := by
  unfold run_agent
  rw [runLoop_success, runLoop_subtasks]
  simp

/-- C10: in every returned RunResult, every subtask's parsed-call field is
`None` — it is initialized to `None` and never assigned, whether or not
the subtask's parse and dispatch succeed. -/
theorem run_agent_function_call_always_none (llm1Response : String)
    (llm2 : String → String) (d : Directory) (r0 : Registry) (task : String) :
    (run_agent llm1Response llm2 d r0 task).subtasks.all
      (fun r => r.function_call.isNone) = true := by
  unfold run_agent
  rw [runLoop_subtasks]
  simp only [List.nil_append, List.all_eq_true]
  intro r hr
  have : ∀ (subs : List String) (i : Nat) (x : SubtaskResult),
      x ∈ stepResults llm2 (load_functions_from_directory d r0).registry i subs →
      x.function_call.isNone = true := by
    intro subs
    induction subs with
    | nil => intro i x hx; exact absurd hx (by simp [stepResults])
    | cons st rest ih =>
      intro i x hx
      rw [stepResults, List.mem_cons] at hx
      rcases hx with rfl | hx
      · unfold subtaskStep
        cases attemptSubtask llm2 (load_functions_from_directory d r0).registry st <;> rfl
      · exact ih (i + 1) x hx
  exact this _ 0 r hr

/-- C3: in a run whose planner produced two subtasks, where the first
subtask's dispatch fails on an unregistered function name and the second
attempt succeeds, the run is marked failed, the first subtask failed, the
second succeeded — the first failure does not prevent the second attempt. -/
theorem run_agent_first_fails_second_succeeds (llm1Response : String)
    (llm2 : String → String) (d : Directory) (r0 : Registry)
    (task s1 s2 n1 : String) (a1 : List (String × Value)) (r2 : String)
    (h1 : process_llm1_response llm1Response = [s1, s2])
    (h2 : parse_function_call (stripFences (llm2 ("Subtask: " ++ s1))) = (some n1, a1))
    (h3 : (load_functions_from_directory d r0).registry n1 = Option.none)
    (h4 : attemptSubtask llm2 (load_functions_from_directory d r0).registry s2 =
      Except.ok r2) :
    (run_agent llm1Response llm2 d r0 task).success = false ∧
    (run_agent llm1Response llm2 d r0 task).subtasks.map (fun r => r.success) =
      [false, true] := by
  have hfail : attemptSubtask llm2 (load_functions_from_directory d r0).registry s1 =
      Except.error ("Function " ++ sq ++ n1 ++ sq ++ " not found in registry") := by
    simp only [attemptSubtask, h2, execute_function, h3]
  constructor
  · unfold run_agent
    rw [runLoop_success, h1]
    simp [stepResults, subtaskStep, hfail]
  · unfold run_agent
    rw [runLoop_subtasks, h1]
    simp [stepResults, subtaskStep, hfail, h4]

/-- Concrete executor oracle for the C3 witness: the first subtask is
mapped to a call of an unregistered name, every other subtask to a call of
the one registered function. -/
def exLlm2 : String → String :=
  fun s => if s = "Subtask: a" then "ai_missing()" else "ai_ok()"

/-- Concrete function entry for the C3 witness: no parameters, returns 7. -/
def exOkEntry : FuncEntry := FuncEntry.mk [] (fun _ => Except.ok (Value.int 7))

/-- Concrete one-function directory for the C3 witness. -/
def exDir : Directory := Directory.mk true [("ai_ok", exOkEntry)]

/-- Concrete planner reply for the C3 witness, the two-element list
literal naming subtasks `a` and `b`. -/
def exPlannerReply : String :=
  "[" ++ sq ++ "a" ++ sq ++ ", " ++ sq ++ "b" ++ sq ++ "]"

/-- Witness for C3 at a concrete two-subtask run: the first dispatch hits
an unregistered name, the second succeeds. -/
theorem run_agent_first_fails_second_succeeds_case :
    (run_agent exPlannerReply exLlm2 exDir emptyRegistry "t").success = false ∧
    (run_agent exPlannerReply exLlm2 exDir emptyRegistry "t").subtasks.map
      (fun r => r.success) = [false, true] :=
  run_agent_first_fails_second_succeeds exPlannerReply exLlm2 exDir emptyRegistry
    "t" "a" "b" "ai_missing" [] "7" (by decide) (by decide) rfl rfl

end Spec2Proof
